import Mathlib

/-!
Verification of the stream-normalization path of
`apps/sim/app/api/chat-completion-streaming/route.ts` and of the tool-execution
loop of `apps/sim/providers/lmstudio/index.ts` (with the streaming token
update of `apps/sim/providers/lmstudio/utils.ts`).

Modelling conventions:
* JS strings are lists of characters (`Str`).  The upstream byte stream is
  modelled after text decoding: a list of already-decoded text chunks, which is
  the granularity at which `route.ts` observes it (`decoder.decode` with
  `stream: true` hides byte-level splits inside a character).
* `JSON.parse` is a platform builtin, not repository code; it is a parameter
  (`parse : Str → Option Js`): `some` is a successful parse to a JSON value,
  `none` is a thrown `SyntaxError`.  The field extraction
  `json.choices?.[0]?.delta?.content || json.content || ''` is repository code
  and is embedded over `Js`.
* `crypto.randomUUID`, `Date.now`, the backend chat-completion calls, and
  `executeTool` are external effects; they are environment parameters.
* An exception from `reader.read()` or decoding is modelled by `readError`:
  the stream delivered the listed chunks and then the read raised.
  `controller.enqueue` and `controller.close` are modelled as non-failing.
-/

namespace Sim

/-- JS strings, modelled as lists of characters. -/
abbrev Str := List Char

namespace Chat

/-- JSON values: the possible results of a successful `JSON.parse`. -/
inductive Js where
  | str (s : Str)
  | num (n : Int)
  | bool (b : Bool)
  | null
  | arr (elems : List Js)
  | obj (fields : List (String × Js))

/-- JS truthiness of a JSON value: `''`, `0`, `false` and `null` are falsy,
any array or object (even empty) is truthy. -/
def Js.truthy : Js → Bool
  | .str s => !s.isEmpty
  | .num n => n != 0
  | .bool b => b
  | .null => false
  | .arr _ => true
  | .obj _ => true

/-- Property access `j.k` on a JSON value; `none` is JS `undefined`. -/
def Js.getField : Js → String → Option Js
  | .obj fields, k => fields.lookup k
  | _, _ => none

/-- Index access `j[0]` on a JSON value (array case; `none` is `undefined`). -/
def Js.index0 : Js → Option Js
  | .arr (x :: _) => some x
  | _ => none

/-- JS `a || b` where `a` may be `undefined`: `b` if `a` is absent or falsy. -/
def orJs (a : Option Js) (b : Js) : Js :=
  match a with
  | some v => if v.truthy then v else b
  | none => b

/-- `route.ts:151`: `json.choices?.[0]?.delta?.content || json.content || ''`. -/
def extractContent (j : Js) : Js :=
  let deltaContent :=
    ((j.getField "choices").bind Js.index0).bind
      (fun c => (c.getField "delta").bind (fun d => d.getField "content"))
  orJs deltaContent (orJs (j.getField "content") (.str []))

/-- Canonical SSE events enqueued by the route (spec section 6 wire format).
`errorEv` is the `{"type":"error"}` event of the spec protocol; it is part of
the event type so that claims about it are statable. -/
inductive CEvent where
  | chatIdEv (chatId : String)
  | content (data : Js)
  | done (responseId : String)
  | errorEv (message : String)

/-- How the canonical stream ended: `controller.close()` or
`controller.error(e)` (a transport-level stream failure). -/
inductive Terminal where
  | closed
  | errored (message : String)
deriving DecidableEq

def CEvent.isContent : CEvent → Bool
  | .content _ => true
  | _ => false

def CEvent.isDone : CEvent → Bool
  | .done _ => true
  | _ => false

def CEvent.isErrorEv : CEvent → Bool
  | .errorEv _ => true
  | _ => false

/-- A content event whose data is the empty string. -/
def CEvent.isEmptyContent : CEvent → Bool
  | .content (.str s) => s.isEmpty
  | _ => false

/-- `route.ts:112`: JS whitespace for `trim` (approximated by `Char.isWhitespace`). -/
def wsp (c : Char) : Bool := c.isWhitespace

/-- JS `String.prototype.trim`. -/
def trimL (s : Str) : Str := ((s.dropWhile wsp).reverse.dropWhile wsp).reverse

/-- JS `buffer.split('\n')`: splits at every newline, keeping empty segments;
never returns an empty list. -/
def splitNl : Str → List Str
  | [] => [[]]
  | c :: rest =>
    match splitNl rest with
    | [] => [[]]
    | h :: t => if c = '\n' then [] :: h :: t else (c :: h) :: t

/-- JS `s.includes(pat)`. -/
def hasSub (pat : List Char) : List Char → Bool
  | [] => pat.isEmpty
  | c :: rest => pat.isPrefixOf (c :: rest) || hasSub pat rest

/-- The SSE framing marker checked by `route.ts:135` and `route.ts:143`. -/
def marker : Str := "data: ".toList

/-- The stream-end sentinel of `route.ts:145`. -/
def doneSentinel : Str := "[DONE]".toList

/-- `route.ts:140-170`: the `for (const line of lines)` loop of one chunk.
A `[DONE]` payload executes `break`, dropping the remaining lines of this
chunk.  Blank lines and lines without the `data: ` prefix are skipped.  A
payload that parses emits its extracted content when truthy; a payload that
fails to parse is forwarded raw when non-empty. -/
def processLines (parse : Str → Option Js) : List Str → List CEvent
  | [] => []
  | line :: rest =>
    if trimL line = [] then processLines parse rest
    else if marker.isPrefixOf line then
      let data := trimL (line.drop 6)
      if data = doneSentinel then []
      else
        match parse data with
        | some j =>
          if (extractContent j).truthy then
            .content (extractContent j) :: processLines parse rest
          else processLines parse rest
        | none =>
          if data.isEmpty then processLines parse rest
          else .content (.str data) :: processLines parse rest
    else processLines parse rest

/-- `route.ts:131-184`: processing of one decoded chunk.  Returns the new line
buffer and the events enqueued for this chunk.  When the accumulated buffer
contains the framing marker the chunk is treated as SSE (split on newline,
incomplete last line retained); otherwise the whole buffer is flushed as one
raw content event (when non-empty) and cleared. -/
def processChunk (parse : Str → Option Js) (buffer chunk : Str) : Str × List CEvent :=
  let buf := buffer ++ chunk
  if hasSub marker buf then
    ((splitNl buf).getLastD [], processLines parse (splitNl buf).dropLast)
  else
    ([], if buf.isEmpty then [] else [.content (.str buf)])

/-- `route.ts:127-185`: the `while (true)` read loop over all delivered chunks,
threading the line buffer.  Whatever remains in the buffer when the reader
signals completion is dropped. -/
def runChunks (parse : Str → Option Js) : List Str → Str → List CEvent
  | [], _ => []
  | c :: cs, buffer =>
    (processChunk parse buffer c).2 ++ runChunks parse cs (processChunk parse buffer c).1

/-- The events of a whole normalized stream together with how it terminated. -/
structure NormOut where
  events : List CEvent
  terminal : Terminal

/-- `route.ts:118-124`: the optional leading chat-id event. -/
def chatIdEvents : Option String → List CEvent
  | some cid => [.chatIdEv cid]
  | none => []

/-- `route.ts:108-205`: the full stream transform.  `chunks` are the decoded
text chunks delivered by `reader.read()`; `readError` is `some msg` when the
read raised (with message `msg`) after those chunks, `none` on a normal end of
stream.  On normal end the route enqueues exactly one done event carrying the
`responseId` generated at stream start and closes; on an exception it calls
`controller.error` without enqueueing anything further. -/
def normalizeStream (parse : Str → Option Js) (chatId : Option String)
    (chunks : List Str) (readError : Option String) (responseId : String) : NormOut :=
  match readError with
  | none =>
      ⟨chatIdEvents chatId ++ runChunks parse chunks [] ++ [.done responseId], .closed⟩
  | some msg =>
      ⟨chatIdEvents chatId ++ runChunks parse chunks [], .errored msg⟩

/-- Concatenation of the (string-valued) content data in emission order. -/
def contentText (evs : List CEvent) : Str :=
  evs.foldr
    (fun e acc =>
      match e with
      | .content (.str s) => s ++ acc
      | _ => acc)
    []

/-- A parse oracle under which every payload is malformed JSON. -/
def parseNone : Str → Option Js := fun _ => none

/-- An in-band terminal event of the canonical protocol: done or error. -/
def CEvent.isTerminalEv (e : CEvent) : Bool := e.isDone || e.isErrorEv

end Chat

namespace LMStudio

/-- One tool call requested by the model
(`choices[0].message.tool_calls[i]`). -/
structure ToolCallReq where
  id : String
  name : String
  arguments : String
deriving DecidableEq

/-- `executeTool` outcome shape: `{success, output, error}`.  `output` is
`none` when the tool returned no output (JS `undefined`). -/
structure ToolRes where
  success : Bool
  output : Option String
  error : Option String
deriving DecidableEq

instance {ε α : Type} [DecidableEq ε] [DecidableEq α] : DecidableEq (Except ε α) := fun a b =>
  match a, b with
  | .error e, .error f =>
      if h : e = f then .isTrue (by rw [h]) else .isFalse (by simp [h])
  | .ok x, .ok y =>
      if h : x = y then .isTrue (by rw [h]) else .isFalse (by simp [h])
  | .error _, .ok _ => .isFalse (by simp)
  | .ok _, .error _ => .isFalse (by simp)

/-- External effects of one tool invocation, `index.ts:300-341`:
`argsParse` is the outcome of `JSON.parse(toolCall.function.arguments)`;
`toolParams` the value built by `prepareToolExecution`; `exec` the outcome of
`await executeTool ...` (`Except.error` is a thrown exception, its message);
`startTime`/`endTime` the two `Date.now()` readings around the invocation. -/
structure InvEnv where
  argsParse : Except String Unit
  toolParams : String
  exec : Except String ToolRes
  startTime : Nat
  endTime : Nat
deriving DecidableEq

/-- The record an invocation promise fulfills with (`index.ts:314-339`), or
`none` for the silent `if (!tool) return null` skip. -/
structure InvRecord where
  toolCall : ToolCallReq
  toolName : String
  toolParams : String
  result : ToolRes
  startTime : Nat
  endTime : Nat
  duration : Nat
deriving DecidableEq

/-- `index.ts:300-341`: one invocation.  `JSON.parse` of the arguments runs
first; a throw there (or from `prepareToolExecution`/`executeTool`) is caught
and turned into a failure record.  Only when the arguments parsed and the tool
name is absent from `request.tools` does the invocation return `null`. -/
def processInvocation (availTools : List String) (tc : ToolCallReq) (env : InvEnv) :
    Option InvRecord :=
  match env.argsParse with
  | .error msg =>
      some { toolCall := tc, toolName := tc.name, toolParams := "",
             result := { success := false, output := none, error := some msg },
             startTime := env.startTime, endTime := env.endTime,
             duration := env.endTime - env.startTime }
  | .ok _ =>
      if tc.name ∈ availTools then
        match env.exec with
        | .ok result =>
            some { toolCall := tc, toolName := tc.name, toolParams := env.toolParams,
                   result := result,
                   startTime := env.startTime, endTime := env.endTime,
                   duration := env.endTime - env.startTime }
        | .error msg =>
            some { toolCall := tc, toolName := tc.name, toolParams := "",
                   result := { success := false, output := none, error := some msg },
                   startTime := env.startTime, endTime := env.endTime,
                   duration := env.endTime - env.startTime }
      else none

/-- `index.ts:300-343`: the concurrent fan-out joined by `Promise.allSettled`,
which fulfills with the per-invocation results in issuance order (every
promise fulfills, since each async callback catches all throws). -/
def processBatch (availTools : List String) (tcs : List ToolCallReq)
    (f : Nat → InvEnv) : List InvRecord :=
  tcs.enum.filterMap (fun p => processInvocation availTools p.2 (f p.1))

inductive SegType where
  | model
  | tool
deriving DecidableEq

structure TimeSegment where
  type : SegType
  name : String
  startTime : Nat
  endTime : Nat
  duration : Nat
deriving DecidableEq

/-- The serialized per-call result content: the raw output on success, the
structured `{error: true, message, tool}` payload on failure. -/
inductive ResContent where
  | out (v : Option String)
  | errObj (message : String) (tool : String)
deriving DecidableEq

/-- An entry of the `toolCalls` accumulator (`index.ts:384-392`). -/
structure CallRecord where
  name : String
  arguments : String
  startTime : Nat
  endTime : Nat
  duration : Nat
  result : ResContent
  success : Bool
deriving DecidableEq

/-- Conversation messages appended by the loop.  `initial` stands for one of
the request-supplied messages (opaque to the loop). -/
inductive Msg where
  | initial (i : Nat)
  | assistantToolCalls (tcs : List ToolCallReq)
  | toolMsg (toolCallId : String) (content : ResContent)
deriving DecidableEq

/-- The `{input, output, total}` token counters of the batch result. -/
structure Tokens where
  input : Nat
  output : Nat
  total : Nat
deriving DecidableEq

/-- `response.usage` of one model call (field defaults `|| 0` are applied at
use sites; an absent `usage` object is `none`). -/
structure Usage where
  prompt_tokens : Nat
  completion_tokens : Nat
  total_tokens : Nat
deriving DecidableEq

/-- The parts of one model response read by the loop:
`choices[0]?.message?.content` (`none` for null or absent),
`choices[0]?.message?.tool_calls` (`[]` for absent or empty), `usage`. -/
structure ModelResponse where
  content : Option String
  tool_calls : List ToolCallReq
  usage : Option Usage
deriving DecidableEq

/-- The mutable accumulators of `executeRequest` between `index.ts:259-282`
and the end of the loop. -/
structure LoopState where
  content : String
  tokens : Tokens
  toolCalls : List CallRecord
  toolResults : List (Option String)
  messages : List Msg
  timeSegments : List TimeSegment
  modelTime : Nat
  toolsTime : Nat
deriving DecidableEq

/-- `error.timing` attached to the rethrown error (`index.ts:470-478`). -/
structure ErrResult where
  message : String
  startTime : Nat
  endTime : Nat
  duration : Nat
deriving DecidableEq

structure Timing where
  startTime : Nat
  endTime : Nat
  duration : Nat
  modelTime : Nat
  toolsTime : Nat
  firstResponseTime : Nat
  iterations : Nat
  timeSegments : List TimeSegment
deriving DecidableEq

/-- The batch (non-streaming) result of `executeRequest` (`index.ts:443-459`). -/
structure BatchResult where
  content : String
  tokens : Tokens
  toolCalls : Option (List CallRecord)
  toolResults : Option (List (Option String))
  timing : Timing
deriving DecidableEq

/-- The external world of one batch request: the available tool ids
(`request.tools`), the model responses (call `k` either fulfills or rejects),
the per-iteration per-invocation tool effects, and the `Date.now()` readings
(model call spans, tool phase spans, request start and end). -/
structure Env where
  availTools : List String
  initMessages : List Msg
  resp : Nat → Except String ModelResponse
  inv : Nat → Nat → InvEnv
  modelSpan : Nat → Nat × Nat
  toolsSpan : Nat → Nat × Nat
  reqStart : Nat
  reqEnd : Nat

/-- `MAX_TOOL_ITERATIONS`, imported by `index.ts` from `@/providers`.
Modelled from the spec: the constant itself is not under `src/`; spec
section 8 fixes `MAX_TOOL_ITERATIONS = 3`. -/
def MAX_TOOL_ITERATIONS : Nat := 3

/-- `index.ts:285-287` and `index.ts:426-428`: `content` is replaced only by a
truthy (non-empty, non-null) response content. -/
def updContent (old : String) : Option String → String
  | some s => if s = "" then old else s
  | none => old

/-- `index.ts:430-434`: the batch loop adds the usage of each follow-up
response to the running totals (skipped when `usage` is absent). -/
def addTokens (t : Tokens) : Option Usage → Tokens
  | some u =>
      { input := t.input + u.prompt_tokens,
        output := t.output + u.completion_tokens,
        total := t.total + u.total_tokens }
  | none => t

/-- `index.ts:261-265`: the initial token counters (`usage?.x || 0`). -/
def mkTokens : Option Usage → Tokens
  | some u => ⟨u.prompt_tokens, u.completion_tokens, u.total_tokens⟩
  | none => ⟨0, 0, 0⟩

/-- The tool time segment pushed for a record (`index.ts:364-370`). -/
def segOf (r : InvRecord) : TimeSegment :=
  { type := .tool, name := r.toolName, startTime := r.startTime,
    endTime := r.endTime, duration := r.duration }

/-- `result.error || 'Tool execution failed'` (`index.ts:379`). -/
def errMsgOf : Option String → String
  | some e => if e = "" then "Tool execution failed" else e
  | none => "Tool execution failed"

/-- The `resultContent` of a record (`index.ts:372-382`). -/
def resContentOf (r : InvRecord) : ResContent :=
  if r.result.success then .out r.result.output
  else .errObj (errMsgOf r.result.error) r.toolName

/-- The `toolCalls` entry pushed for a record (`index.ts:384-392`). -/
def callOf (r : InvRecord) : CallRecord :=
  { name := r.toolName, arguments := r.toolParams, startTime := r.startTime,
    endTime := r.endTime, duration := r.duration, result := resContentOf r,
    success := r.result.success }

/-- One pass of the `for (const settledResult of executionResults)` body
(`index.ts:358-399`): one time segment, one `toolCalls` entry and one
tool-role message per record, plus the output in `toolResults` when the
invocation succeeded. -/
def appendRecord (st : LoopState) (r : InvRecord) : LoopState :=
  { st with
    timeSegments := st.timeSegments ++ [segOf r],
    toolResults := st.toolResults ++ (if r.result.success then [r.result.output] else []),
    toolCalls := st.toolCalls ++ [callOf r],
    messages := st.messages ++ [.toolMsg r.toolCall.id (resContentOf r)] }

def appendAll (st : LoopState) (recs : List InvRecord) : LoopState :=
  recs.foldl appendRecord st

/-- `index.ts:298-402`: the tool phase of iteration `itc`: run the batch,
push the assistant message carrying all raw tool-call requests, append the
settled records in issuance order, and add the elapsed tool time. -/
def stepTools (env : Env) (itc : Nat) (tcs : List ToolCallReq) (st : LoopState) : LoopState :=
  let recs := processBatch env.availTools tcs (env.inv itc)
  let st := { st with messages := st.messages ++ [.assistantToolCalls tcs] }
  let st := appendAll st recs
  { st with toolsTime := st.toolsTime + ((env.toolsSpan itc).2 - (env.toolsSpan itc).1) }

/-- `index.ts:409-434`: the follow-up model call `k`: push its model time
segment, add its duration to `modelTime`, take its content when truthy, add
its usage to the token totals. -/
def afterModel (env : Env) (k : Nat) (resp : ModelResponse) (st : LoopState) : LoopState :=
  let span := env.modelSpan k
  let st := { st with
    timeSegments := st.timeSegments ++
      [({ type := .model,
          name := "Model response (iteration " ++ toString k ++ ")",
          startTime := span.1, endTime := span.2,
          duration := span.2 - span.1 } : TimeSegment)],
    modelTime := st.modelTime + (span.2 - span.1) }
  let st := { st with content := updContent st.content resp.content }
  { st with tokens := addTokens st.tokens resp.usage }

/-- `index.ts:284-437`: the `while (iterationCount < MAX_TOOL_ITERATIONS)`
loop; `fuel` is `MAX_TOOL_ITERATIONS - iterationCount`, so the guard failing
is `fuel = 0`.  A rejected follow-up model call unwinds to the catch block
(`index.ts:460-479`) and rethrows with the timing span attached. -/
def loop (env : Env) : Nat → Nat → ModelResponse → LoopState →
    Except ErrResult (Nat × LoopState)
  | 0, itc, _, st => .ok (itc, st)
  | fuel + 1, itc, resp, st =>
    let st1 := { st with content := updContent st.content resp.content }
    if resp.tool_calls.isEmpty then .ok (itc, st1)
    else
      let st2 := stepTools env itc resp.tool_calls st1
      match env.resp (itc + 1) with
      | .error msg =>
          .error { message := msg, startTime := env.reqStart, endTime := env.reqEnd,
                   duration := env.reqEnd - env.reqStart }
      | .ok next => loop env fuel (itc + 1) next (afterModel env (itc + 1) next st2)

/-- `index.ts:254-437`: the initial model call, the initial accumulators and
the loop, returning the final `iterationCount` and state. -/
def runFinalState (env : Env) : Except ErrResult (Nat × LoopState) :=
  match env.resp 0 with
  | .error msg =>
      .error { message := msg, startTime := env.reqStart, endTime := env.reqEnd,
               duration := env.reqEnd - env.reqStart }
  | .ok r0 =>
      let span0 := env.modelSpan 0
      let firstResponseTime := span0.2 - span0.1
      loop env MAX_TOOL_ITERATIONS 0 r0
        { content := r0.content.getD "",
          tokens := mkTokens r0.usage,
          toolCalls := [], toolResults := [],
          messages := env.initMessages,
          timeSegments := [({ type := .model, name := "Initial response",
                              startTime := span0.1, endTime := span0.2,
                              duration := firstResponseTime } : TimeSegment)],
          modelTime := firstResponseTime, toolsTime := 0 }

/-- `index.ts:443-459`: the packaged batch result.  `toolCalls` and
`toolResults` are `undefined` (here `none`) when their accumulators are empty;
`timing.iterations` is `iterationCount + 1`. -/
def executeRequest (env : Env) : Except ErrResult BatchResult :=
  match runFinalState env with
  | .error e => .error e
  | .ok (itc, st) =>
      .ok { content := st.content, tokens := st.tokens,
            toolCalls := if st.toolCalls.isEmpty then none else some st.toolCalls,
            toolResults := if st.toolResults.isEmpty then none else some st.toolResults,
            timing := { startTime := env.reqStart, endTime := env.reqEnd,
                        duration := env.reqEnd - env.reqStart,
                        modelTime := st.modelTime, toolsTime := st.toolsTime,
                        firstResponseTime := (env.modelSpan 0).2 - (env.modelSpan 0).1,
                        iterations := itc + 1, timeSegments := st.timeSegments } }

/-- `chunk.usage` of one streamed chunk: each field may be absent. -/
structure UsageObj where
  prompt_tokens : Option Nat
  completion_tokens : Option Nat
  total_tokens : Option Nat
deriving DecidableEq

/-- One chunk of the LM Studio stream as read by `utils.ts:13-24`. -/
structure SChunk where
  deltaContent : Option String
  usage : Option UsageObj
deriving DecidableEq

/-- The `tokens` field of the shared streaming result: each counter may be
`undefined` (`none`), since `index.ts:185-189` copies `usage.prompt_tokens`
etc. verbatim. -/
structure STokens where
  input : Option Nat
  output : Option Nat
  total : Option Nat
deriving DecidableEq

/-- `utils.ts:10`: the `usage` accumulator starts as the empty object `{}`. -/
def emptyUsageObj : UsageObj := ⟨none, none, none⟩

/-- `utils.ts:17-19`: the latest `chunk.usage` seen so far (kept, not added). -/
def usageAfter (chunks : List SChunk) : UsageObj :=
  chunks.foldl (fun u c => c.usage.getD u) emptyUsageObj

/-- `index.ts:185-189`: the per-update overwrite of the token counters from
the current `usage` object. -/
def tokensOfUsage (u : UsageObj) : STokens :=
  ⟨u.prompt_tokens, u.completion_tokens, u.total_tokens⟩

/-- `index.ts:223`: the `tokens` value set when the streaming result object is
constructed, before any update. -/
def streamTokensInit : STokens := ⟨some 0, some 0, some 0⟩

/-- The `tokens` field of the streaming result after the `onUpdate` callback
has run for every chunk of `chunks` (for a non-empty chunk list; before the
first update it holds `streamTokensInit`). -/
def streamTokensAfter (chunks : List SChunk) : STokens :=
  tokensOfUsage (usageAfter chunks)

/-! Concrete requests, tool behaviours and environments used to evaluate the
embedding at specific inputs. -/

def tcW1 : ToolCallReq := ⟨"call-1", "alpha", "argsA"⟩

def tcW2 : ToolCallReq := ⟨"call-2", "beta", "argsB"⟩

/-- A tool call naming a tool that is absent from the available set. -/
def tcGhostW : ToolCallReq := ⟨"call-9", "ghost", "oops"⟩

/-- A well-behaved invocation: arguments parse, the tool succeeds. -/
def invOkW : InvEnv :=
  { argsParse := .ok (), toolParams := "paramsA",
    exec := .ok ⟨true, some "outA", none⟩, startTime := 0, endTime := 1 }

/-- An invocation whose tool call throws. -/
def invFailW : InvEnv :=
  { argsParse := .ok (), toolParams := "paramsA",
    exec := .error "tool blew up", startTime := 2, endTime := 3 }

/-- An invocation whose argument string is malformed JSON. -/
def invBadW : InvEnv :=
  { argsParse := .error "Unexpected token", toolParams := "",
    exec := .ok ⟨true, some "x", none⟩, startTime := 5, endTime := 9 }

/-- The record produced for `tcGhostW` under `invBadW`. -/
def recBadW : InvRecord :=
  { toolCall := tcGhostW, toolName := "ghost", toolParams := "",
    result := ⟨false, none, some "Unexpected token"⟩,
    startTime := 5, endTime := 9, duration := 4 }

/-- An invocation issued first but completing last (ends at 100). -/
def invSlowW : InvEnv :=
  { argsParse := .ok (), toolParams := "",
    exec := .ok ⟨true, some "ra", none⟩, startTime := 0, endTime := 100 }

/-- An invocation issued second but completing first (ends at 50). -/
def invFastW : InvEnv :=
  { argsParse := .ok (), toolParams := "",
    exec := .ok ⟨true, some "rb", none⟩, startTime := 10, endTime := 50 }

def invPairW : Nat → InvEnv := fun i => if i = 0 then invSlowW else invFastW

/-- Every invocation of the batch gets `invBadW`. -/
def invBadFW : Nat → InvEnv := fun _ => invBadW

/-- The tool segment of `tcW1` under `invSlowW`. -/
def segSlowW : TimeSegment := ⟨.tool, "alpha", 0, 100, 100⟩

/-- The tool segment of `tcW2` under `invFastW`. -/
def segFastW : TimeSegment := ⟨.tool, "beta", 10, 50, 40⟩

/-- A model response that always requests one more tool call. -/
def respToolsW : ModelResponse :=
  { content := some "step", tool_calls := [tcW1], usage := some ⟨1, 1, 2⟩ }

/-- A model response with no tool calls. -/
def respDoneW : ModelResponse :=
  { content := some "final", tool_calls := [], usage := some ⟨1, 1, 2⟩ }

/-- An environment whose model always requests new tool calls. -/
def envAlwaysW : Env :=
  { availTools := ["alpha", "beta"], initMessages := [],
    resp := fun _ => .ok respToolsW, inv := fun _ _ => invOkW,
    modelSpan := fun k => (10 * k, 10 * k + 1),
    toolsSpan := fun k => (10 * k + 2, 10 * k + 4),
    reqStart := 0, reqEnd := 1000 }

/-- An environment whose model answers at once without tool calls. -/
def envQuietW : Env :=
  { availTools := [], initMessages := [],
    resp := fun _ => .ok respDoneW, inv := fun _ _ => invOkW,
    modelSpan := fun _ => (0, 0), toolsSpan := fun _ => (0, 0),
    reqStart := 0, reqEnd := 0 }

/-- An environment whose model requests only the absent tool `ghost`. -/
def envGhostW : Env :=
  { availTools := ["alpha"], initMessages := [],
    resp := fun _ => .ok respDoneW, inv := fun _ _ => invOkW,
    modelSpan := fun _ => (0, 0), toolsSpan := fun _ => (0, 0),
    reqStart := 0, reqEnd := 0 }

/-- An empty accumulator state. -/
def emptyStateW : LoopState :=
  { content := "", tokens := ⟨0, 0, 0⟩, toolCalls := [], toolResults := [],
    messages := [], timeSegments := [], modelTime := 0, toolsTime := 0 }

/-- The loop state after running `envQuietW` to completion. -/
def stQuietW : LoopState :=
  { content := "final", tokens := ⟨1, 1, 2⟩, toolCalls := [], toolResults := [],
    messages := [], timeSegments := [⟨.model, "Initial response", 0, 0, 0⟩],
    modelTime := 0, toolsTime := 0 }

/-- The state reached by the loop on `envQuietW` from `emptyStateW`. -/
def stFinalW : LoopState :=
  { content := "final", tokens := ⟨0, 0, 0⟩, toolCalls := [], toolResults := [],
    messages := [], timeSegments := [], modelTime := 0, toolsTime := 0 }

/-- The batch result of `envQuietW`. -/
def rQuietW : BatchResult :=
  { content := "final", tokens := ⟨1, 1, 2⟩, toolCalls := none, toolResults := none,
    timing := { startTime := 0, endTime := 0, duration := 0, modelTime := 0,
                toolsTime := 0, firstResponseTime := 0, iterations := 1,
                timeSegments := [⟨.model, "Initial response", 0, 0, 0⟩] } }

def defaultBatchResultW : BatchResult :=
  { content := "", tokens := ⟨0, 0, 0⟩, toolCalls := none, toolResults := none,
    timing := { startTime := 0, endTime := 0, duration := 0, modelTime := 0,
                toolsTime := 0, firstResponseTime := 0, iterations := 0,
                timeSegments := [] } }

/-- The batch result of `envAlwaysW` (the capped run). -/
def rAlwaysW : BatchResult :=
  (executeRequest envAlwaysW).toOption.getD defaultBatchResultW

end LMStudio

namespace Chat

/-- Unfolding of `processChunk` when the buffer contains the framing marker. -/
theorem processChunk_sse (parse : Str → Option Js) (buffer chunk : Str)
    (h : hasSub marker (buffer ++ chunk) = true) :
    processChunk parse buffer chunk
      = ((splitNl (buffer ++ chunk)).getLastD [],
         processLines parse (splitNl (buffer ++ chunk)).dropLast) := by
  simp [processChunk, h]

/-- Unfolding of `processChunk` on a marker-free buffer: the raw-text branch. -/
theorem processChunk_raw (parse : Str → Option Js) (buffer chunk : Str)
    (h : hasSub marker (buffer ++ chunk) = false) :
    processChunk parse buffer chunk
      = ([], if (buffer ++ chunk).isEmpty then []
             else [.content (.str (buffer ++ chunk))]) := by
  simp [processChunk, h]

/-- A truthy JSON value does not serialize to an empty content string. -/
theorem emptyContent_of_truthy {c : Js} (h : c.truthy = true) :
    CEvent.isEmptyContent (.content c) = false := by
  cases c with
  | str s =>
    simp only [Js.truthy, Bool.not_eq_true'] at h
    simp [CEvent.isEmptyContent, h]
  | num n => rfl
  | bool b => rfl
  | null => rfl
  | arr elems => rfl
  | obj fields => rfl

/-- Every event emitted by the line loop is a non-empty content event. -/
theorem processLines_sound (parse : Str → Option Js) :
    ∀ lines, ∀ e ∈ processLines parse lines,
      e.isContent = true ∧ e.isEmptyContent = false := by
  intro lines
  induction lines with
  | nil => intro e he; simp [processLines] at he
  | cons line rest ih =>
    intro e he
    simp only [processLines] at he
    split at he
    · exact ih e he
    · split at he
      · split at he
        · exact absurd he (List.not_mem_nil e)
        · split at he
          next j _ =>
            split at he
            next htr =>
              rcases List.mem_cons.mp he with h | h
              · subst h; exact ⟨rfl, emptyContent_of_truthy htr⟩
              · exact ih e h
            next => exact ih e he
          next =>
            split at he
            next => exact ih e he
            next hne =>
              rcases List.mem_cons.mp he with h | h
              · subst h
                refine ⟨rfl, ?_⟩
                simp only [CEvent.isEmptyContent]
                exact Bool.not_eq_true _ ▸ Bool.of_not_eq_true hne
              · exact ih e h
      · exact ih e he

/-- Every event emitted for one chunk is a non-empty content event. -/
theorem processChunk_sound (parse : Str → Option Js) (buffer chunk : Str) :
    ∀ e ∈ (processChunk parse buffer chunk).2,
      e.isContent = true ∧ e.isEmptyContent = false := by
  intro e he
  by_cases h : hasSub marker (buffer ++ chunk) = true
  · rw [processChunk_sse parse buffer chunk h] at he
    exact processLines_sound parse _ e he
  · rw [processChunk_raw parse buffer chunk (Bool.of_not_eq_true h)] at he
    split at he
    · exact absurd he (List.not_mem_nil e)
    next hne =>
      rcases List.mem_cons.mp he with h1 | h1
      · subst h1
        refine ⟨rfl, ?_⟩
        simp only [CEvent.isEmptyContent]
        exact Bool.of_not_eq_true hne
      · exact absurd h1 (List.not_mem_nil e)

/-- Every event emitted by the whole read loop is a non-empty content event:
done, error and chat-id events never originate from chunk processing. -/
theorem runChunks_sound (parse : Str → Option Js) :
    ∀ (chunks : List Str) (buffer : Str), ∀ e ∈ runChunks parse chunks buffer,
      e.isContent = true ∧ e.isEmptyContent = false := by
  intro chunks
  induction chunks with
  | nil => intro buffer e he; simp [runChunks] at he
  | cons c cs ih =>
    intro buffer e he
    simp only [runChunks] at he
    rcases List.mem_append.mp he with h | h
    · exact processChunk_sound parse buffer c e h
    · exact ih _ e h

/-- A content event is not a terminal event. -/
theorem not_terminal_of_content {e : CEvent} (h : e.isContent = true) :
    e.isTerminalEv = false := by
  cases e <;> simp_all [CEvent.isContent, CEvent.isTerminalEv, CEvent.isDone, CEvent.isErrorEv]

theorem runChunks_no_terminal (parse : Str → Option Js) (chunks : List Str) (buffer : Str) :
    (runChunks parse chunks buffer).countP CEvent.isTerminalEv = 0 := by
  refine List.countP_eq_zero.mpr ?_
  intro e he
  simp [not_terminal_of_content (runChunks_sound parse chunks buffer e he).1]

theorem runChunks_no_done (parse : Str → Option Js) (chunks : List Str) (buffer : Str) :
    (runChunks parse chunks buffer).countP CEvent.isDone = 0 := by
  refine List.countP_eq_zero.mpr ?_
  intro e he
  have h := (runChunks_sound parse chunks buffer e he).1
  cases e <;> simp_all [CEvent.isContent, CEvent.isDone]

theorem runChunks_no_errorEv (parse : Str → Option Js) (chunks : List Str) (buffer : Str) :
    (runChunks parse chunks buffer).countP CEvent.isErrorEv = 0 := by
  refine List.countP_eq_zero.mpr ?_
  intro e he
  have h := (runChunks_sound parse chunks buffer e he).1
  cases e <;> simp_all [CEvent.isContent, CEvent.isErrorEv]

theorem runChunks_no_emptyContent (parse : Str → Option Js) (chunks : List Str)
    (buffer : Str) :
    (runChunks parse chunks buffer).countP CEvent.isEmptyContent = 0 := by
  refine List.countP_eq_zero.mpr ?_
  intro e he
  simp [(runChunks_sound parse chunks buffer e he).2]

theorem chatIdEvents_no_terminal (chatId : Option String) :
    (chatIdEvents chatId).countP CEvent.isTerminalEv = 0 := by
  cases chatId <;> rfl

theorem normalizeStream_none_events (parse : Str → Option Js) (chatId : Option String)
    (chunks : List Str) (rid : String) :
    (normalizeStream parse chatId chunks none rid).events
      = chatIdEvents chatId ++ runChunks parse chunks [] ++ [.done rid] := rfl

theorem normalizeStream_none_terminal (parse : Str → Option Js) (chatId : Option String)
    (chunks : List Str) (rid : String) :
    (normalizeStream parse chatId chunks none rid).terminal = .closed := rfl

theorem normalizeStream_some_events (parse : Str → Option Js) (chatId : Option String)
    (chunks : List Str) (msg rid : String) :
    (normalizeStream parse chatId chunks (some msg) rid).events
      = chatIdEvents chatId ++ runChunks parse chunks [] := rfl

theorem normalizeStream_some_terminal (parse : Str → Option Js) (chatId : Option String)
    (chunks : List Str) (msg rid : String) :
    (normalizeStream parse chatId chunks (some msg) rid).terminal = .errored msg := rfl

/-- `contentText` distributes over concatenation of event lists. -/
theorem contentText_append (a b : List CEvent) :
    contentText (a ++ b) = contentText a ++ contentText b := by
  induction a with
  | nil => rfl
  | cons e a ih =>
    simp only [List.cons_append, contentText, List.foldr_cons] at ih ⊢
    cases e with
    | content d =>
      cases d with
      | str s => rw [ih, List.append_assoc]
      | num n => exact ih
      | bool v => exact ih
      | null => exact ih
      | arr elems => exact ih
      | obj fields => exact ih
    | chatIdEv c => exact ih
    | done r => exact ih
    | errorEv m => exact ih

/-- On a marker-free chunk list the read loop flushes each chunk verbatim. -/
theorem contentText_runChunks_raw (parse : Str → Option Js) :
    ∀ (chunks : List Str), (∀ c ∈ chunks, hasSub marker c = false) →
      contentText (runChunks parse chunks []) = chunks.flatten := by
  intro chunks
  induction chunks with
  | nil => intro _; rfl
  | cons c cs ih =>
    intro h
    have hc : hasSub marker (([] : Str) ++ c) = false := by
      simpa using h c (List.mem_cons_self c cs)
    simp only [runChunks]
    rw [processChunk_raw parse [] c hc]
    rw [contentText_append]
    rw [ih (fun x hx => h x (List.mem_cons_of_mem c hx))]
    simp only [List.nil_append, List.flatten_cons]
    by_cases hce : c.isEmpty = true
    · rw [if_pos hce, List.isEmpty_iff.mp hce]
      rfl
    · rw [if_neg hce]
      simp [contentText]

end Chat

open Chat in
/-- C1 (amended): on a normal end-of-stream the canonical event sequence
contains exactly one terminal event — the done event carrying the responseId
generated at stream start — and it is the last event, emitted even if no
ContentEvent was ever produced (empty stream included).  On an upstream
exception, however, the enqueued sequence contains no terminal event at all —
no done and no in-band error event — and is cut off by a transport-level
stream error, so the frozen claim fails on the exception path (see the
counterexample). -/
theorem claim_C1 (parse : Str → Option Js) (chatId : Option String)
    (chunks : List Str) (rid : String) :
    ((normalizeStream parse chatId chunks none rid).events.countP CEvent.isTerminalEv = 1
      ∧ (normalizeStream parse chatId chunks none rid).events.getLast? = some (.done rid)
      ∧ (normalizeStream parse chatId chunks none rid).terminal = .closed)
    ∧ (∀ msg,
        (normalizeStream parse chatId chunks (some msg) rid).events.countP
            CEvent.isTerminalEv = 0
        ∧ (normalizeStream parse chatId chunks (some msg) rid).terminal = .errored msg)
    ∧ (normalizeStream parse chatId [] none rid).events
        = chatIdEvents chatId ++ [.done rid] := by
  refine ⟨⟨?_, ?_, rfl⟩, ?_, ?_⟩
  · rw [normalizeStream_none_events, List.countP_append, List.countP_append,
      chatIdEvents_no_terminal, runChunks_no_terminal]
    rfl
  · rw [normalizeStream_none_events, List.getLast?_concat]
  · intro msg
    refine ⟨?_, rfl⟩
    rw [normalizeStream_some_events, List.countP_append, chatIdEvents_no_terminal,
      runChunks_no_terminal]
  · rw [normalizeStream_none_events]
    simp [runChunks]

open Chat in
/-- C1 counterexample: an upstream exception on an empty stream leaves the
enqueued canonical event sequence empty — it has no terminal event and hence
no last terminal event, contrary to the frozen claim that every sequence,
exception path included, contains exactly one terminal done-or-error event as
its last element; the termination is only the transport-level stream error. -/
theorem claim_C1_counterexample :
    (normalizeStream parseNone none [] (some "boom") "rid").events = []
    ∧ (normalizeStream parseNone none [] (some "boom") "rid").events.countP
        CEvent.isDone = 0
    ∧ (normalizeStream parseNone none [] (some "boom") "rid").events.countP
        CEvent.isErrorEv = 0
    ∧ (normalizeStream parseNone none [] (some "boom") "rid").terminal
        = Terminal.errored "boom" :=
  ⟨rfl, rfl, rfl, rfl⟩


open Chat in
/-- C2 (amended): when reading or decoding raises after streaming began, the
route terminates the stream with a transport-level `controller.error` carrying
the exception; no done event and no in-band error event is enqueued.  (The
claim as frozen asserts an in-band ErrorEvent; the code never enqueues one,
see the counterexample.) -/
theorem claim_C2 (parse : Str → Option Js) (chatId : Option String)
    (chunks : List Str) (msg rid : String) :
    (normalizeStream parse chatId chunks (some msg) rid).terminal = Terminal.errored msg
    ∧ (normalizeStream parse chatId chunks (some msg) rid).events.countP CEvent.isDone = 0
    ∧ (normalizeStream parse chatId chunks (some msg) rid).events.countP CEvent.isErrorEv = 0 := by
  refine ⟨rfl, ?_, ?_⟩
  · rw [normalizeStream_some_events, List.countP_append, runChunks_no_done]
    cases chatId <;> rfl
  · rw [normalizeStream_some_events, List.countP_append, runChunks_no_errorEv]
    cases chatId <;> rfl

open Chat in
/-- C2 counterexample: an upstream exception after one delivered chunk.  The
enqueued event sequence holds a single content event and no event of type
error; the termination is the transport-level stream error, so no in-band
ErrorEvent with a message is emitted, contrary to the claim. -/
theorem claim_C2_counterexample :
    (normalizeStream parseNone none ["Hello".toList] (some "connection reset") "rid").events.countP
        CEvent.isErrorEv = 0
    ∧ (normalizeStream parseNone none ["Hello".toList] (some "connection reset") "rid").events.length
        = 1
    ∧ (normalizeStream parseNone none ["Hello".toList] (some "connection reset") "rid").terminal
        = Terminal.errored "connection reset" :=
  ⟨rfl, rfl, rfl⟩

open Chat in
/-- C3 (amended): chunk-boundary invariance of the concatenated content holds
for streams in which no delivered chunk contains the SSE framing marker: the
content events then concatenate to exactly the full upstream text, whatever
the chunking.  (As frozen the claim fails: the SSE/raw mode decision is made
per chunk, so chunkings that split the marker change both the event sequence
and the concatenated content, see the counterexample.) -/
theorem claim_C3 (parse : Str → Option Js) (chatId : Option String) (rid : String)
    (chunks : List Str) (h : ∀ c ∈ chunks, hasSub marker c = false) :
    contentText (normalizeStream parse chatId chunks none rid).events = chunks.flatten := by
  rw [normalizeStream_none_events, contentText_append, contentText_append]
  rw [contentText_runChunks_raw parse chunks h]
  have h1 : contentText (chatIdEvents chatId) = [] := by cases chatId <;> rfl
  rw [h1]
  simp [contentText]

open Chat in
/-- C3 witness: a marker-free two-chunk stream concatenates to the full text. -/
theorem claim_C3_witness :
    contentText (normalizeStream parseNone none ["Hel".toList, "lo".toList] none "rid").events
      = (["Hel".toList, "lo".toList] : List Str).flatten :=
  claim_C3 parseNone none "rid" ["Hel".toList, "lo".toList] (by decide)

open Chat in
/-- C3 counterexample: the bytes of the text `data: x` delivered whole produce
no content event (the line stays buffered, mode is SSE), while the same bytes
split as `da`/`ta: x` produce two raw content events; neither the event
sequences nor the content concatenations agree, refuting chunk-boundary
invariance as claimed. -/
theorem claim_C3_counterexample :
    (normalizeStream parseNone none ["data: x".toList] none "rid").events.length = 1
    ∧ (normalizeStream parseNone none ["da".toList, "ta: x".toList] none "rid").events.length = 3
    ∧ ("da".toList ++ "ta: x".toList : Str) = "data: x".toList
    ∧ contentText (normalizeStream parseNone none ["data: x".toList] none "rid").events = []
    ∧ contentText (normalizeStream parseNone none ["da".toList, "ta: x".toList] none "rid").events
        = "data: x".toList :=
  ⟨rfl, rfl, by decide, rfl, by decide⟩

namespace Chat

/-- A line starting with the framing marker does not trim to the empty line. -/
theorem trim_ne_nil_of_marker (line : Str) (h : marker.isPrefixOf line = true) :
    trimL line ≠ [] := by
  have hpre : marker <+: line := (List.isPrefixOf_iff_prefix).mp h
  obtain ⟨t, ht⟩ := hpre
  have hm : marker = 'd' :: "ata: ".toList := by decide
  rw [hm, List.cons_append] at ht
  intro hnil
  rw [← ht] at hnil
  simp only [trimL] at hnil
  rw [List.dropWhile_cons] at hnil
  have hd : wsp 'd' = false := by decide
  simp only [hd, Bool.false_eq_true, if_false] at hnil
  rw [List.reverse_eq_nil_iff] at hnil
  have hall := List.dropWhile_eq_nil_iff.mp hnil 'd'
    (List.mem_reverse.mpr (List.mem_cons_self _ _))
  rw [hd] at hall
  exact Bool.false_ne_true hall

end Chat

open Chat in
/-- C4 (amended): for every complete framed line that the per-chunk line loop
reaches (in particular, not shadowed by a `[DONE]` payload earlier in the same
chunk), a non-empty, non-sentinel payload that fails to parse as JSON yields a
content event whose data is the raw payload text; and no stream ever emits a
content event with an empty data string.  (As frozen the claim fails for
complete lines behind a same-chunk `[DONE]`, see the counterexample.) -/
theorem claim_C4 :
    (∀ (parse : Str → Option Js) (line : Str) (rest : List Str),
        marker.isPrefixOf line = true →
        parse (trimL (line.drop 6)) = none →
        trimL (line.drop 6) ≠ [] →
        trimL (line.drop 6) ≠ doneSentinel →
        processLines parse (line :: rest)
          = .content (.str (trimL (line.drop 6))) :: processLines parse rest)
    ∧ (∀ (parse : Str → Option Js) (chatId : Option String) (chunks : List Str)
        (readError : Option String) (rid : String),
        (normalizeStream parse chatId chunks readError rid).events.countP
            CEvent.isEmptyContent = 0) := by
  constructor
  · intro parse line rest hpre hparse hne hnd
    have htr : ¬ trimL line = [] := trim_ne_nil_of_marker line hpre
    have hie : (trimL (line.drop 6)).isEmpty = false := List.isEmpty_eq_false.mpr hne
    simp [processLines, htr, hpre, hnd, hparse, hie]
  · intro parse chatId chunks readError rid
    cases readError with
    | none =>
      rw [normalizeStream_none_events, List.countP_append, List.countP_append,
        runChunks_no_emptyContent]
      cases chatId <;> rfl
    | some msg =>
      rw [normalizeStream_some_events, List.countP_append, runChunks_no_emptyContent]
      cases chatId <;> rfl

open Chat in
/-- C4 witness: the spec scenario `data: not-json` produces exactly one content
event carrying the raw payload, and a raw-text stream emits no empty content. -/
theorem claim_C4_witness :
    processLines parseNone ["data: not-json".toList]
      = [.content (.str (trimL ("data: not-json".toList.drop 6)))]
    ∧ (normalizeStream parseNone none ["Hello".toList] none "rid").events.countP
        CEvent.isEmptyContent = 0 :=
  ⟨claim_C4.1 parseNone ("data: not-json".toList) [] (by decide) rfl (by decide) (by decide),
   claim_C4.2 parseNone none ["Hello".toList] none "rid"⟩

open Chat in
/-- C4 counterexample: the chunk `data: [DONE]\ndata: junk\n` carries the
complete framed line `data: junk` whose payload `junk` is non-empty, is not
the sentinel and fails to parse, yet the stream emits no content event at all:
the `[DONE]` earlier in the chunk breaks the line loop, silently discarding
the payload, contrary to the universal claim. -/
theorem claim_C4_counterexample :
    (normalizeStream parseNone none ["data: [DONE]\ndata: junk\n".toList] none "rid").events.countP
        CEvent.isContent = 0
    ∧ marker.isPrefixOf ("data: junk".toList) = true
    ∧ trimL ("data: junk".toList.drop 6) = "junk".toList
    ∧ parseNone ("junk".toList) = none
    ∧ "junk".toList ≠ []
    ∧ "junk".toList ≠ doneSentinel :=
  ⟨rfl, rfl, by decide, rfl, by decide, by decide⟩

namespace LMStudio

/-- Closed form of the settled-results append loop (`index.ts:358-399`): per
record, exactly one time segment, one `toolCalls` entry and one tool message;
the output joins `toolResults` exactly when the invocation succeeded; all four
lists grow in record (issuance) order, and no other field changes. -/
theorem appendAll_eq (recs : List InvRecord) :
    ∀ st : LoopState,
      appendAll st recs
        = { st with
            timeSegments := st.timeSegments ++ recs.map segOf,
            toolCalls := st.toolCalls ++ recs.map callOf,
            toolResults := st.toolResults
              ++ recs.filterMap
                  (fun r => if r.result.success then some r.result.output else none),
            messages := st.messages
              ++ recs.map (fun r => Msg.toolMsg r.toolCall.id (resContentOf r)) } := by
  induction recs with
  | nil => intro st; simp [appendAll]
  | cons r rs ih =>
    intro st
    have h := ih (appendRecord st r)
    simp only [appendAll, List.foldl_cons] at h ⊢
    rw [h]
    by_cases hs : r.result.success = true <;>
      simp [appendRecord, hs, List.append_assoc, List.filterMap_cons]

/-- The batch produces one settled record per invocation whose processing
returned a record, in issuance order. -/
theorem processBatch_length (avail : List String) (tcs : List ToolCallReq)
    (f : Nat → InvEnv) :
    (processBatch avail tcs f).length
      = tcs.enum.countP (fun p => (processInvocation avail p.2 (f p.1)).isSome) := by
  unfold processBatch
  generalize tcs.enum = l
  induction l with
  | nil => rfl
  | cons a l ih =>
    rw [List.filterMap_cons, List.countP_cons]
    cases hf : processInvocation avail a.2 (f a.1) <;> simp [hf, ih]

theorem afterModel_tokens (env : Env) (k : Nat) (resp : ModelResponse) (st : LoopState) :
    (afterModel env k resp st).tokens = addTokens st.tokens resp.usage := rfl

theorem stepTools_tokens (env : Env) (itc : Nat) (tcs : List ToolCallReq)
    (st : LoopState) :
    (stepTools env itc tcs st).tokens = st.tokens := by
  simp [stepTools, appendAll_eq]

theorem addTokens_le (t : Tokens) (u : Option Usage) :
    t.input ≤ (addTokens t u).input ∧ t.output ≤ (addTokens t u).output
      ∧ t.total ≤ (addTokens t u).total := by
  cases u <;> simp [addTokens]

/-- The final iteration counter exceeds the starting one by at most the fuel. -/
theorem loop_itc_le (env : Env) :
    ∀ (fuel itc : Nat) (resp : ModelResponse) (st : LoopState) (itc' : Nat)
      (st' : LoopState),
      loop env fuel itc resp st = .ok (itc', st') → itc' ≤ itc + fuel := by
  intro fuel
  induction fuel with
  | zero =>
    intro itc resp st itc' st' h
    simp only [loop, Except.ok.injEq, Prod.mk.injEq] at h
    omega
  | succ n ih =>
    intro itc resp st itc' st' h
    simp only [loop] at h
    split at h
    · simp only [Except.ok.injEq, Prod.mk.injEq] at h
      omega
    · split at h
      · exact absurd h (by simp)
      · have := ih _ _ _ _ _ h
        omega

/-- The token counters never decrease across the loop. -/
theorem loop_tokens_le (env : Env) :
    ∀ (fuel itc : Nat) (resp : ModelResponse) (st : LoopState) (itc' : Nat)
      (st' : LoopState),
      loop env fuel itc resp st = .ok (itc', st') →
      st.tokens.input ≤ st'.tokens.input ∧ st.tokens.output ≤ st'.tokens.output
        ∧ st.tokens.total ≤ st'.tokens.total := by
  intro fuel
  induction fuel with
  | zero =>
    intro itc resp st itc' st' h
    simp only [loop, Except.ok.injEq, Prod.mk.injEq] at h
    rw [← h.2]
    exact ⟨le_refl _, le_refl _, le_refl _⟩
  | succ n ih =>
    intro itc resp st itc' st' h
    simp only [loop] at h
    split at h
    · simp only [Except.ok.injEq, Prod.mk.injEq] at h
      rw [← h.2]
      exact ⟨le_refl _, le_refl _, le_refl _⟩
    · split at h
      · exact absurd h (by simp)
      next next hnext =>
        have hrec := ih _ _ _ _ _ h
        rw [afterModel_tokens, stepTools_tokens] at hrec
        have hadd := addTokens_le
          (({ st with content := updContent st.content resp.content } : LoopState).tokens)
          next.usage
        exact ⟨le_trans hadd.1 hrec.1, le_trans hadd.2.1 hrec.2.1,
          le_trans hadd.2.2 hrec.2.2⟩

/-- When every model call fulfills and always requests tool calls, the loop
consumes all its fuel and returns normally. -/
theorem loop_always (env : Env)
    (hok : ∀ k, ∃ m, env.resp k = .ok m ∧ m.tool_calls.isEmpty = false) :
    ∀ (fuel itc : Nat) (resp : ModelResponse) (st : LoopState),
      resp.tool_calls.isEmpty = false →
      ∃ st', loop env fuel itc resp st = .ok (itc + fuel, st') := by
  intro fuel
  induction fuel with
  | zero => intro itc resp st _; exact ⟨st, by simp [loop]⟩
  | succ n ih =>
    intro itc resp st hresp
    obtain ⟨m, hm, hmt⟩ := hok (itc + 1)
    obtain ⟨st', hst'⟩ := ih (itc + 1) m
      (afterModel env (itc + 1) m
        (stepTools env itc resp.tool_calls
          { st with content := updContent st.content resp.content })) hmt
    refine ⟨st', ?_⟩
    simp only [loop, hresp, Bool.false_eq_true, if_false, hm]
    rw [hst']
    have : itc + 1 + n = itc + (n + 1) := by omega
    rw [this]

theorem runFinalState_itc_le (env : Env) (itc : Nat) (st : LoopState)
    (h : runFinalState env = .ok (itc, st)) : itc ≤ MAX_TOOL_ITERATIONS := by
  simp only [runFinalState] at h
  split at h
  · exact absurd h (by simp)
  · have := loop_itc_le env _ _ _ _ _ _ h
    omega

end LMStudio

open LMStudio in
/-- C5 (amended): the `iterations` field of the returned timing is
`iterationCount + 1`, hence at most `MAX_TOOL_ITERATIONS + 1`; with a model
that always requests new tool calls the loop body runs exactly
`MAX_TOOL_ITERATIONS` times, the request returns normally (no error), and the
returned `iterations` field is `MAX_TOOL_ITERATIONS + 1` = 4, exceeding
`MAX_TOOL_ITERATIONS` — the bound claimed for the field itself fails, see the
counterexample. -/
theorem claim_C5 :
    (∀ (env : Env) (itc : Nat) (st : LoopState),
        runFinalState env = .ok (itc, st) → itc + 1 ≤ MAX_TOOL_ITERATIONS + 1)
    ∧ (∀ (env : Env) (r : BatchResult),
        executeRequest env = .ok r → r.timing.iterations ≤ MAX_TOOL_ITERATIONS + 1)
    ∧ (∀ env : Env,
        (∀ k, ∃ m, env.resp k = .ok m ∧ m.tool_calls.isEmpty = false) →
        ∃ r, executeRequest env = .ok r
          ∧ r.timing.iterations = MAX_TOOL_ITERATIONS + 1) := by
  refine ⟨?_, ?_, ?_⟩
  · intro env itc st h
    have := runFinalState_itc_le env itc st h
    omega
  · intro env r h
    simp only [executeRequest] at h
    split at h
    · exact absurd h (by simp)
    next itca sta heq =>
      simp only [Except.ok.injEq] at h
      rw [← h]
      have := runFinalState_itc_le env itca sta heq
      simpa using Nat.add_le_add_right this 1
  · intro env hok
    obtain ⟨r0, hr0, hr0t⟩ := hok 0
    obtain ⟨st', hloop⟩ := loop_always env hok MAX_TOOL_ITERATIONS 0 r0 _ hr0t
    have hfs : runFinalState env = .ok (MAX_TOOL_ITERATIONS, st') := by
      simp only [runFinalState, hr0]
      simpa using hloop
    refine ⟨{ content := st'.content, tokens := st'.tokens,
              toolCalls := if st'.toolCalls.isEmpty then none else some st'.toolCalls,
              toolResults := if st'.toolResults.isEmpty then none else some st'.toolResults,
              timing := { startTime := env.reqStart, endTime := env.reqEnd,
                          duration := env.reqEnd - env.reqStart,
                          modelTime := st'.modelTime, toolsTime := st'.toolsTime,
                          firstResponseTime := (env.modelSpan 0).2 - (env.modelSpan 0).1,
                          iterations := MAX_TOOL_ITERATIONS + 1,
                          timeSegments := st'.timeSegments } }, ?_, rfl⟩
    simp only [executeRequest, hfs]

open LMStudio in
/-- C5 counterexample: under `envAlwaysW` (model always requests a tool call)
the returned `iterations` field is 4, strictly exceeding
`MAX_TOOL_ITERATIONS = 3`, because `index.ts:456` reports
`iterationCount + 1`. -/
theorem claim_C5_counterexample :
    executeRequest envAlwaysW = .ok rAlwaysW
    ∧ rAlwaysW.timing.iterations = 4
    ∧ MAX_TOOL_ITERATIONS = 3
    ∧ MAX_TOOL_ITERATIONS < rAlwaysW.timing.iterations := by
  refine ⟨rfl, rfl, rfl, ?_⟩
  rw [show rAlwaysW.timing.iterations = 4 from rfl]
  decide

open LMStudio in
/-- C5 witness: the amended bounds applied to the concrete environments. -/
theorem claim_C5_witness :
    executeRequest envAlwaysW = .ok rAlwaysW
    ∧ rAlwaysW.timing.iterations ≤ MAX_TOOL_ITERATIONS + 1
    ∧ rAlwaysW.timing.iterations = MAX_TOOL_ITERATIONS + 1
    ∧ 0 + 1 ≤ MAX_TOOL_ITERATIONS + 1 := by
  have hr : executeRequest envAlwaysW = .ok rAlwaysW := by rfl
  refine ⟨hr, claim_C5.2.1 envAlwaysW rAlwaysW hr, ?_,
    claim_C5.1 envQuietW 0 stQuietW rfl⟩
  obtain ⟨r, hr2, hit⟩ := claim_C5.2.2 envAlwaysW (fun k => ⟨respToolsW, rfl, rfl⟩)
  rw [hr] at hr2
  injection hr2 with h
  rw [h]
  exact hit

namespace LMStudio

/-- A batch in which every invocation is skipped settles to no records. -/
theorem processBatch_nil (avail : List String) (tcs : List ToolCallReq)
    (f : Nat → InvEnv)
    (h : ∀ p ∈ tcs.enum, processInvocation avail p.2 (f p.1) = none) :
    processBatch avail tcs f = [] := by
  have hgen : ∀ (l : List (Nat × ToolCallReq)),
      (∀ p ∈ l, processInvocation avail p.2 (f p.1) = none) →
      l.filterMap (fun p => processInvocation avail p.2 (f p.1)) = [] := by
    intro l
    induction l with
    | nil => intro _; rfl
    | cons a l ih =>
      intro hh
      rw [List.filterMap_cons, hh a (List.mem_cons_self a l)]
      exact ih (fun p hp => hh p (List.mem_cons_of_mem a hp))
  exact hgen tcs.enum h

end LMStudio

open LMStudio in
/-- C6: every invocation of a batch is settled independently with
all-outcomes-captured semantics: a thrown argument parse, a thrown tool
execution and a successful execution each fulfill with exactly one record
(success true or false) built only from that invocation and its own effects;
the append loop then records exactly one tool time segment and one
ToolCallRecord per settled record regardless of outcome (in particular a
failure never drops a sibling record); and the loop then issues the next
model call. -/
theorem claim_C6 :
    (∀ (avail : List String) (tc : ToolCallReq) (env : InvEnv) (msg : String),
        env.argsParse = .error msg →
        processInvocation avail tc env
          = some { toolCall := tc, toolName := tc.name, toolParams := "",
                   result := { success := false, output := none, error := some msg },
                   startTime := env.startTime, endTime := env.endTime,
                   duration := env.endTime - env.startTime })
    ∧ (∀ (avail : List String) (tc : ToolCallReq) (env : InvEnv) (msg : String),
        env.argsParse = .ok () → tc.name ∈ avail → env.exec = .error msg →
        processInvocation avail tc env
          = some { toolCall := tc, toolName := tc.name, toolParams := "",
                   result := { success := false, output := none, error := some msg },
                   startTime := env.startTime, endTime := env.endTime,
                   duration := env.endTime - env.startTime })
    ∧ (∀ (avail : List String) (tc : ToolCallReq) (env : InvEnv) (res : ToolRes),
        env.argsParse = .ok () → tc.name ∈ avail → env.exec = .ok res →
        processInvocation avail tc env
          = some { toolCall := tc, toolName := tc.name, toolParams := env.toolParams,
                   result := res, startTime := env.startTime, endTime := env.endTime,
                   duration := env.endTime - env.startTime })
    ∧ (∀ (st : LoopState) (recs : List InvRecord),
        (appendAll st recs).timeSegments = st.timeSegments ++ recs.map segOf
        ∧ (appendAll st recs).toolCalls = st.toolCalls ++ recs.map callOf)
    ∧ (∀ (env : Env) (fuel itc : Nat) (resp next : ModelResponse) (st : LoopState),
        resp.tool_calls.isEmpty = false → env.resp (itc + 1) = .ok next →
        loop env (fuel + 1) itc resp st
          = loop env fuel (itc + 1) next
              (afterModel env (itc + 1) next
                (stepTools env itc resp.tool_calls
                  { st with content := updContent st.content resp.content }))) := by
  refine ⟨?_, ?_, ?_, ?_, ?_⟩
  · intro avail tc env msg h
    simp [processInvocation, h]
  · intro avail tc env msg h1 h2 h3
    simp [processInvocation, h1, h2, h3]
  · intro avail tc env res h1 h2 h3
    simp [processInvocation, h1, h2, h3]
  · intro st recs
    rw [appendAll_eq recs st]
    exact ⟨rfl, rfl⟩
  · intro env fuel itc resp next st hne hnext
    simp only [loop, hne, Bool.false_eq_true, if_false, hnext]

open LMStudio in
/-- C6 witness: the three settle outcomes, the per-record append and the loop
step, each at a concrete input. -/
theorem claim_C6_witness :
    processInvocation ["alpha"] tcGhostW invBadW = some recBadW
    ∧ processInvocation ["alpha"] tcW1 invFailW
        = some { toolCall := tcW1, toolName := "alpha", toolParams := "",
                 result := ⟨false, none, some "tool blew up"⟩,
                 startTime := 2, endTime := 3, duration := 1 }
    ∧ processInvocation ["alpha"] tcW1 invOkW
        = some { toolCall := tcW1, toolName := "alpha", toolParams := "paramsA",
                 result := ⟨true, some "outA", none⟩,
                 startTime := 0, endTime := 1, duration := 1 }
    ∧ (appendAll emptyStateW [recBadW]).timeSegments
        = emptyStateW.timeSegments ++ [recBadW].map segOf
    ∧ loop envAlwaysW (0 + 1) 0 respToolsW emptyStateW
        = loop envAlwaysW 0 (0 + 1) respToolsW
            (afterModel envAlwaysW (0 + 1) respToolsW
              (stepTools envAlwaysW 0 respToolsW.tool_calls
                { emptyStateW with
                    content := updContent emptyStateW.content respToolsW.content })) := by
  refine ⟨?_, ?_, ?_, ?_, ?_⟩
  · exact claim_C6.1 ["alpha"] tcGhostW invBadW "Unexpected token" rfl
  · exact claim_C6.2.1 ["alpha"] tcW1 invFailW "tool blew up" rfl (by decide) rfl
  · exact claim_C6.2.2.1 ["alpha"] tcW1 invOkW ⟨true, some "outA", none⟩ rfl (by decide) rfl
  · exact (claim_C6.2.2.2.1 emptyStateW [recBadW]).1
  · exact claim_C6.2.2.2.2 envAlwaysW 0 0 respToolsW respToolsW emptyStateW rfl rfl

open LMStudio in
/-- C7 (amended): `toolResults` receives exactly the outputs of the successful
invocations, and the `toolResults`, `toolCalls` and tool time-segment lists
are appended in issuance order — the order of the requested tool calls, which
`Promise.allSettled` preserves — not in completion order. -/
theorem claim_C7 (st : LoopState) (avail : List String) (tcs : List ToolCallReq)
    (f : Nat → InvEnv) :
    (appendAll st (processBatch avail tcs f)).toolResults
      = st.toolResults ++ (processBatch avail tcs f).filterMap
          (fun r => if r.result.success then some r.result.output else none)
    ∧ (appendAll st (processBatch avail tcs f)).toolCalls
      = st.toolCalls ++ (processBatch avail tcs f).map callOf
    ∧ (appendAll st (processBatch avail tcs f)).timeSegments
      = st.timeSegments ++ (processBatch avail tcs f).map segOf := by
  rw [appendAll_eq (processBatch avail tcs f) st]
  exact ⟨rfl, rfl, rfl⟩

open LMStudio in
/-- C7 counterexample: two concurrent invocations where the second-issued tool
(`beta`, completing at 50) finishes before the first-issued (`alpha`,
completing at 100): segments and results are nevertheless appended in
issuance order `[alpha, beta]`, so the appended order is not completion
order, contrary to the claim. -/
theorem claim_C7_counterexample :
    (processBatch ["alpha", "beta"] [tcW1, tcW2] invPairW).map segOf
      = [segSlowW, segFastW]
    ∧ (appendAll emptyStateW
        (processBatch ["alpha", "beta"] [tcW1, tcW2] invPairW)).toolResults
      = [some "ra", some "rb"]
    ∧ segFastW.endTime < segSlowW.endTime :=
  ⟨rfl, rfl, by decide⟩

open LMStudio in
/-- C8 (amended): an invocation naming a tool absent from the available set is
skipped silently — no settled record, hence no ToolCallRecord, no tool time
segment, no collected output and no tool-role message — provided its argument
string parses as JSON; a whole batch of such invocations leaves every
accumulator unchanged except for the assistant message carrying the raw
requests.  (When the arguments are malformed the catch path fires before the
lookup and a failed call IS recorded, see the counterexample.) -/
theorem claim_C8 :
    (∀ (avail : List String) (tc : ToolCallReq) (env : InvEnv),
        env.argsParse = .ok () → tc.name ∉ avail →
        processInvocation avail tc env = none)
    ∧ (∀ (env : Env) (itc : Nat) (tcs : List ToolCallReq) (st : LoopState),
        (∀ p ∈ tcs.enum,
            (env.inv itc p.1).argsParse = .ok () ∧ p.2.name ∉ env.availTools) →
        (stepTools env itc tcs st).toolCalls = st.toolCalls
        ∧ (stepTools env itc tcs st).timeSegments = st.timeSegments
        ∧ (stepTools env itc tcs st).toolResults = st.toolResults
        ∧ (stepTools env itc tcs st).messages
            = st.messages ++ [.assistantToolCalls tcs]) := by
  have hnone : ∀ (avail : List String) (tc : ToolCallReq) (env : InvEnv),
      env.argsParse = .ok () → tc.name ∉ avail →
      processInvocation avail tc env = none := by
    intro avail tc env h1 h2
    simp [processInvocation, h1, h2]
  refine ⟨hnone, ?_⟩
  intro env itc tcs st h
  have hb : processBatch env.availTools tcs (env.inv itc) = [] :=
    processBatch_nil _ _ _ (fun p hp => hnone _ _ _ (h p hp).1 (h p hp).2)
  simp [stepTools, hb, appendAll_eq]

open LMStudio in
/-- C8 witness: a well-formed call to the absent tool `ghost` is fully
silent: no record, and the only message added is the assistant request. -/
theorem claim_C8_witness :
    processInvocation ["alpha"] tcGhostW invOkW = none
    ∧ ((stepTools envGhostW 0 [tcGhostW] emptyStateW).toolCalls
          = emptyStateW.toolCalls
      ∧ (stepTools envGhostW 0 [tcGhostW] emptyStateW).timeSegments
          = emptyStateW.timeSegments
      ∧ (stepTools envGhostW 0 [tcGhostW] emptyStateW).toolResults
          = emptyStateW.toolResults
      ∧ (stepTools envGhostW 0 [tcGhostW] emptyStateW).messages
          = emptyStateW.messages ++ [.assistantToolCalls [tcGhostW]]) :=
  ⟨claim_C8.1 ["alpha"] tcGhostW invOkW rfl (by decide),
   claim_C8.2 envGhostW 0 [tcGhostW] emptyStateW (by decide)⟩

open LMStudio in
/-- C8 counterexample: a call to the absent tool `ghost` with malformed JSON
arguments is not skipped: `JSON.parse` throws before the registry lookup and
the catch path fulfills with a failure record, so a ToolCallRecord, a tool
time segment and a tool-role message are all produced for it. -/
theorem claim_C8_counterexample :
    processBatch ["alpha"] [tcGhostW] invBadFW = [recBadW]
    ∧ recBadW.result.success = false
    ∧ (appendAll emptyStateW
        (processBatch ["alpha"] [tcGhostW] invBadFW)).toolCalls.length = 1
    ∧ (appendAll emptyStateW
        (processBatch ["alpha"] [tcGhostW] invBadFW)).timeSegments.length = 1
    ∧ (appendAll emptyStateW
        (processBatch ["alpha"] [tcGhostW] invBadFW)).messages.length = 1 :=
  ⟨rfl, rfl, rfl, rfl, rfl⟩

open LMStudio in
/-- C9 (amended): in the batch loop the token counters are natural numbers
and monotonically non-decreasing across iterations (each follow-up usage is
added to the running totals); in the streaming path each update overwrites the
counters with a projection of the latest usage-bearing chunk, last-write-wins
per field and not additive — so they need not remain integer-valued or
non-decreasing (see the counterexample). -/
theorem claim_C9 :
    (∀ (env : Env) (fuel itc : Nat) (resp : ModelResponse) (st : LoopState)
        (itc' : Nat) (st' : LoopState),
        loop env fuel itc resp st = .ok (itc', st') →
        st.tokens.input ≤ st'.tokens.input ∧ st.tokens.output ≤ st'.tokens.output
          ∧ st.tokens.total ≤ st'.tokens.total)
    ∧ (∀ (chunks : List SChunk) (c : SChunk),
        streamTokensAfter (chunks ++ [c])
          = (match c.usage with
             | some u => tokensOfUsage u
             | none => streamTokensAfter chunks)) := by
  refine ⟨loop_tokens_le, ?_⟩
  intro chunks c
  cases hc : c.usage <;>
    simp [streamTokensAfter, usageAfter, List.foldl_append, hc]

open LMStudio in
/-- C9 witness: monotonicity on a concrete terminating run, and the
last-write-wins overwrite at a concrete usage-bearing chunk. -/
theorem claim_C9_witness :
    (emptyStateW.tokens.input ≤ stFinalW.tokens.input
      ∧ emptyStateW.tokens.output ≤ stFinalW.tokens.output
      ∧ emptyStateW.tokens.total ≤ stFinalW.tokens.total)
    ∧ streamTokensAfter
        ([⟨some "hi", none⟩] ++ [⟨none, some ⟨some 5, some 2, some 7⟩⟩])
      = tokensOfUsage ⟨some 5, some 2, some 7⟩ := by
  constructor
  · exact claim_C9.1 envQuietW MAX_TOOL_ITERATIONS 0 respDoneW emptyStateW 0 stFinalW rfl
  · exact claim_C9.2 [⟨some "hi", none⟩] ⟨none, some ⟨some 5, some 2, some 7⟩⟩

open LMStudio in
/-- C9 counterexample: the streaming result initializes the counters to the
integers 0, but the first `onUpdate` — fired by a content chunk before any
usage arrives — overwrites each field with the fields of the empty usage
object, i.e. `undefined`: the counters do not stay integer-valued across
updates, refuting the claim for the streaming path. -/
theorem claim_C9_counterexample :
    streamTokensInit.input = some 0
    ∧ streamTokensAfter [⟨some "Hello", none⟩] = ⟨none, none, none⟩
    ∧ (streamTokensAfter [⟨some "Hello", none⟩]).input = none :=
  ⟨rfl, rfl, rfl⟩

open LMStudio in
/-- C10: in the batch result, `toolCalls` is `undefined` exactly when no tool
invocation was recorded, `toolResults` is `undefined` exactly when no
invocation succeeded, and neither field is ever an empty array. -/
theorem claim_C10 (env : Env) (itc : Nat) (st : LoopState) (r : BatchResult)
    (h : runFinalState env = .ok (itc, st)) (hr : executeRequest env = .ok r) :
    (r.toolCalls = none ↔ st.toolCalls = [])
    ∧ (r.toolResults = none ↔ st.toolResults = [])
    ∧ r.toolCalls ≠ some [] ∧ r.toolResults ≠ some [] := by
  simp only [executeRequest, h, Except.ok.injEq] at hr
  subst hr
  refine ⟨?_, ?_, ?_, ?_⟩
  · by_cases hc : st.toolCalls.isEmpty = true
    · simp [hc, List.isEmpty_iff.mp hc]
    · have hc' := Bool.of_not_eq_true hc
      simp [hc', List.isEmpty_eq_false.mp hc']
  · by_cases hc : st.toolResults.isEmpty = true
    · simp [hc, List.isEmpty_iff.mp hc]
    · have hc' := Bool.of_not_eq_true hc
      simp [hc', List.isEmpty_eq_false.mp hc']
  · by_cases hc : st.toolCalls.isEmpty = true
    · simp [hc]
    · have hc' := Bool.of_not_eq_true hc
      simp [hc']
      exact fun hx => (List.isEmpty_eq_false.mp hc') hx
  · by_cases hc : st.toolResults.isEmpty = true
    · simp [hc]
    · have hc' := Bool.of_not_eq_true hc
      simp [hc']
      exact fun hx => (List.isEmpty_eq_false.mp hc') hx

open LMStudio in
/-- C10 witness: the quiet run records nothing and returns both fields as
`none`, never as an empty array. -/
theorem claim_C10_witness :
    (rQuietW.toolCalls = none ↔ stQuietW.toolCalls = ([] : List CallRecord))
    ∧ (rQuietW.toolResults = none ↔ stQuietW.toolResults = ([] : List (Option String)))
    ∧ rQuietW.toolCalls ≠ some [] ∧ rQuietW.toolResults ≠ some [] :=
  claim_C10 envQuietW 0 stQuietW rQuietW rfl rfl

end Sim
